import Mathlib

/-!
Shallow embedding of the live-room messaging core and the authenticated
session core of the bilili_rs repository (src/src/live_ws/message.rs,
src/src/live_ws/mod.rs, src/src/api/mod.rs), together with theorems
settling the frozen claims of the specification.

Bytes are modelled as natural numbers in lists; machine-integer
truncation is explicit with `% 2 ^ 32` and friends. External
collaborators of the source (zlib inflation, serde_json notification
parsing, the reqwest cookie jar, tokio channels and sockets) enter the
model as explicit function parameters or small data types, as noted at
each definition.
-/

namespace Bilili

/-! ## Byte-level primitives

The source uses `byteorder::NetworkEndian` (big-endian) writes and reads
over a `Vec<u8>` / `Cursor<Vec<u8>>`. -/

/-- Big-endian 4-byte encoding of a `u32` value (the Rust `as u32` cast
truncates, which the digit extraction below reproduces). -/
def u32be (n : Nat) : List Nat :=
  [n / 2 ^ 24 % 256, n / 2 ^ 16 % 256, n / 2 ^ 8 % 256, n % 256]

/-- Big-endian 2-byte encoding of a `u16` value. -/
def u16be (n : Nat) : List Nat :=
  [n / 2 ^ 8 % 256, n % 256]

/-- Model of `Cursor::read_u32::<NetworkEndian>`: consume four bytes or fail. -/
def readU32 : List Nat → Option (Nat × List Nat)
  | b0 :: b1 :: b2 :: b3 :: rest => some (((b0 * 256 + b1) * 256 + b2) * 256 + b3, rest)
  | _ => none

/-- Model of `Cursor::read_u16::<NetworkEndian>`: consume two bytes or fail. -/
def readU16 : List Nat → Option (Nat × List Nat)
  | b0 :: b1 :: rest => some (b0 * 256 + b1, rest)
  | _ => none

/-- UTF-8 encoding of one scalar value, as Rust's `str::as_bytes` /
`String::len` see it. -/
def charUtf8 (c : Char) : List Nat :=
  let n := c.toNat
  if n < 128 then [n]
  else if n < 2048 then [192 + n / 64, 128 + n % 64]
  else if n < 65536 then [224 + n / 4096, 128 + n / 64 % 64, 128 + n % 64]
  else [240 + n / 262144, 128 + n / 4096 % 64, 128 + n / 64 % 64, 128 + n % 64]

/-- UTF-8 bytes of a string; `(utf8Bytes s).length` models Rust's `s.len()`. -/
def utf8Bytes (s : String) : List Nat :=
  (s.data.map charUtf8).flatten

/-! ## Client frames (`ClientLiveMessage::encode`, message.rs lines 346-389) -/

structure WsLogin where
  room_id : Nat
  uid : Nat
  key : String
deriving Repr, DecidableEq

inductive ClientLiveMessage where
  | login (l : WsLogin)
  | clientHeartBeat
deriving Repr, DecidableEq

/-- Lowercase hexadecimal digit, as serde_json's escape table emits. -/
def hexDigitChar (n : Nat) : Char :=
  if n < 10 then Char.ofNat (48 + n) else Char.ofNat (87 + n)

/-- Model of serde_json's string escaping: quote and backslash get a
backslash escape, control characters below 0x20 get `\b \t \n \f \r` or a
`\u00XX` escape, everything else is emitted verbatim. -/
def jsonEscapeChar (c : Char) : String :=
  if c = '"' then "\\\""
  else if c = '\\' then "\\\\"
  else if c.toNat ≥ 32 then String.singleton c
  else if c.toNat = 8 then "\\b"
  else if c.toNat = 9 then "\\t"
  else if c.toNat = 10 then "\\n"
  else if c.toNat = 12 then "\\f"
  else if c.toNat = 13 then "\\r"
  else "\\u00" ++ String.singleton (hexDigitChar (c.toNat / 16))
    ++ String.singleton (hexDigitChar (c.toNat % 16))

def jsonEscape (s : String) : String :=
  String.join (s.data.map jsonEscapeChar)

/-- Textual form of `serde_json::json!({"uid": .., "roomid": .., "protover": 2,
"platform": "web", "type": 2, "key": ..}).to_string()`. serde_json's default
`Map` is a `BTreeMap`, so keys serialize in ascending order:
key, platform, protover, roomid, type, uid. The source maps `uid` to
`Some(uid)` when `uid > 0` and to `None` (serialized `null`) otherwise. -/
def loginPayload (room_id uid : Nat) (key : String) : String :=
  "\x7b\"key\":\"" ++ jsonEscape key ++ "\",\"platform\":\"web\",\"protover\":2,\"roomid\":"
    ++ toString room_id ++ ",\"type\":2,\"uid\":"
    ++ (if uid > 0 then toString uid else "null") ++ "\x7d"

/-- Model of `ClientLiveMessage::encode`. Note that the heartbeat branch of
the source writes the literal `16` as the first four bytes (the total
length `package_len = 31` is computed but only used for the vector
capacity), while the login branch writes `package_len`. -/
def ClientLiveMessage.encode : ClientLiveMessage → List Nat
  | .login l =>
    let payload := utf8Bytes (loginPayload l.room_id l.uid l.key)
    let package_len := 16 + payload.length
    u32be package_len ++ u16be 16 ++ u16be 1 ++ u32be 7 ++ u32be 1 ++ payload
  | .clientHeartBeat =>
    let payload := utf8Bytes "[object Object]"
    u32be 16 ++ u16be 16 ++ u16be 1 ++ u32be 2 ++ u32be 1 ++ payload

/-! ## Server frames (`decode_from_server`, message.rs lines 391-479)

The notification payload type and its serde_json parse, and the zlib
inflater, are external to the source file; the decoder below is
parameterized over them (`parse` models `serde_json::from_slice`,
`inflate` models `inflate::inflate_bytes_zlib`). The Rust `'start` loop
over the cursor is modelled as a step function plus a fueled loop; `none`
means the fuel ran out before the loop finished. -/

inductive MsgDecodeError where
  | badHeader
  | uselessMsg (t : Nat)
  | inflateError (e : String)
  | undefinedMsg (pkg_v : Nat) (pkg_type : Nat)
  | decodeBodyError (e : String)
deriving Repr, DecidableEq

inductive ServerLiveMessage (N : Type) where
  | loginAck
  | notification (msg : N)
  | serverHeartBeat
deriving Repr, DecidableEq

/-- Model of reading the five header fields (total length, header length,
version, operation, sequence); any short read is a `BadHeader`. -/
def readHeader (data : List Nat) : Option (Nat × Nat × Nat × Nat × Nat × List Nat) :=
  match readU32 data with
  | none => none
  | some (package_length, r1) =>
    match readU16 r1 with
    | none => none
    | some (package_head_length, r2) =>
      match readU16 r2 with
      | none => none
      | some (package_version, r3) =>
        match readU32 r3 with
        | none => none
        | some (package_type, r4) =>
          match readU32 r4 with
          | none => none
          | some (package_other, rest) =>
            some (package_length, package_head_length, package_version,
              package_type, package_other, rest)

inductive DecodeStep (N : Type) where
  | fail (e : MsgDecodeError)
  | push (msg : ServerLiveMessage N) (remaining : List Nat)
  | inflated (new_data : List Nat)
deriving Repr

/-- Body of one `'start` loop iteration of `decode_from_server`: read the
header (`BadHeader` on a short read); on version 2 hand the **entire
remaining buffer** (`read_to_end`) to the inflater; on version above 2
fail with `UndefinedMsg`; otherwise read
`package_length - package_head_length` body bytes (zero-padded if the
buffer is short, since the read result is ignored; the usize subtraction
wraps modulo `2 ^ 64` as a release build does) and route on the
operation: 3 pushes a server heartbeat, 5 parses the body as a
notification (`DecodeBodyError` on failure), 8 pushes a login ack,
anything else fails with `UndefinedMsg`. -/
def decodeStep {N : Type} (inflate : List Nat → Except String (List Nat))
    (parse : List Nat → Except String N) (data : List Nat) : DecodeStep N :=
  match readHeader data with
  | none => .fail .badHeader
  | some (package_length, package_head_length, package_version, package_type, _, rest) =>
    if package_version = 2 then
      match inflate rest with
      | .error e => .fail (.inflateError e)
      | .ok new_data => .inflated new_data
    else if package_version > 2 then
      .fail (.undefinedMsg package_version package_type)
    else
      let package_body_len := (package_length + 2 ^ 64 - package_head_length) % 2 ^ 64
      let package_body :=
        rest.take package_body_len ++ List.replicate (package_body_len - rest.length) 0
      let remaining := rest.drop package_body_len
      match package_type with
      | 3 => .push .serverHeartBeat remaining
      | 5 =>
        match parse package_body with
        | .error e => .fail (.decodeBodyError e)
        | .ok msg => .push (.notification msg) remaining
      | 8 => .push .loginAck remaining
      | t => .fail (.undefinedMsg package_version t)

/-- Model of `decode_from_server`. One fuel unit is spent per loop
iteration (`continue 'start`). The accumulator models the `&mut
LinkedList` result list: messages pushed before an error stay in it, so
the result carries the list together with an optional error; the loop
continues while the cursor is short of the buffer end. -/
def decode_from_server {N : Type} (inflate : List Nat → Except String (List Nat))
    (parse : List Nat → Except String N) :
    Nat → List Nat → List (ServerLiveMessage N) →
    Option (List (ServerLiveMessage N) × Option MsgDecodeError)
  | 0, _, _ => none
  | fuel + 1, data, acc =>
    match decodeStep inflate parse data with
    | .fail e => some (acc, some e)
    | .inflated new_data => decode_from_server inflate parse fuel new_data acc
    | .push msg remaining =>
      if remaining = [] then some (acc ++ [msg], none)
      else decode_from_server inflate parse fuel remaining (acc ++ [msg])

/-- Modelled from the spec: the source only encodes client frames, so the
well-formed server frames the decoder properties quantify over are built
from the spec's frame table (§3): 4-byte total length including the
16-byte header, 2-byte header length 16, 2-byte version, 4-byte
operation, 4-byte sequence, then the body. -/
def encodeServerFrame (version op seq : Nat) (body : List Nat) : List Nat :=
  u32be (16 + body.length) ++ u16be 16 ++ u16be version ++ u32be op ++ u32be seq ++ body

/-- Message a well-formed uncompressed frame decodes to: operation 3 is the
server heartbeat, 8 the login ack, 5 a notification through the body
parse; anything else is not a decodable frame. -/
def frameMsg {N : Type} (parse : List Nat → Except String N) (op : Nat) (body : List Nat) :
    Option (ServerLiveMessage N) :=
  match op with
  | 3 => some .serverHeartBeat
  | 5 => match parse body with
         | .ok msg => some (.notification msg)
         | .error _ => none
  | 8 => some .loginAck
  | _ => none

/-! ## Read-half loop (`loop_handle_msg`, mod.rs lines 152-200) -/

/-- Incoming tungstenite message kinds, payloads kept only where the loop
uses them. -/
inductive WsMessage where
  | text (t : String)
  | binary (bin : List Nat)
  | ping
  | pong
  | close
  | frame
deriving Repr

/-- Outcome of one `while let` iteration of `loop_handle_msg`:
`forwarded msgs` means the listed messages were sent to the consumer
channel and the loop continues; `stopped` is the `Close` branch breaking
the loop; `consumerClosed` is a failed `tx.send` surfacing `TxClose`. -/
inductive HandleResult (N : Type) where
  | forwarded (msgs : List (ServerLiveMessage N))
  | stopped
  | consumerClosed
deriving Repr, DecidableEq

/-- Model of one iteration of `loop_handle_msg` on a received message.
The `msg_list` is drained completely on every iteration, so it is empty
when an iteration starts. On a binary buffer the decode error (if any) is
only logged — at debug level for `DecodeBodyError`, warning otherwise —
and every message the decoder placed in `msg_list` is still popped and
forwarded; `tx_open` tells whether the consumer channel is still open
(`tx.send` fails on a closed channel, which maps to `TxClose`). -/
def loop_handle_msg_step {N : Type} (inflate : List Nat → Except String (List Nat))
    (parse : List Nat → Except String N) (fuel : Nat) (tx_open : Bool) :
    WsMessage → HandleResult N
  | .text _ => .forwarded []
  | .ping => .forwarded []
  | .pong => .forwarded []
  | .frame => .forwarded []
  | .close => .stopped
  | .binary bin =>
    let decoded :=
      match decode_from_server inflate parse fuel bin [] with
      | none => []
      | some (msgs, _) => msgs
    if tx_open then .forwarded decoded
    else if decoded.isEmpty then .forwarded []
    else .consumerClosed

/-! ## Reconnect supervisor (`open_client`, mod.rs lines 75-137)

The network interactions of one loop iteration are abstracted into an
event script: `danmuFail` is a failed or non-zero `get_danmu_info`
(`continue 'a`, no sleep), `connectFail` is `open_bili_ws` failing on
every host (the `?` operator propagates the transport error),
`sessionTxClose` is a session ending because the consumer channel closed,
and `sessionFail secs` is a session that ended with any other error after
`secs` seconds (`duration_since(start_time).as_secs()`). The model
returns the list of back-off sleep durations performed and the final
outcome; `running rt` means the script was exhausted with the supervisor
still looping at retry counter `rt`. -/

inductive LiveConnectError where
  | txClose
  | ioError
  | retryTimeout
deriving Repr, DecidableEq

inductive SessionEv where
  | danmuFail
  | connectFail
  | sessionTxClose
  | sessionFail (secs : Nat)
deriving Repr, DecidableEq

inductive ClientOutcome where
  | running (reconnect_time : Nat)
  | halted (e : LiveConnectError)
deriving Repr, DecidableEq

/-- Model of the `'a` loop of `open_client`: return `RetryTimeout` once
`reconnect_time` reaches `max_retry`; otherwise increment the counter and
play the next scripted event. After a failed session the counter is reset
to zero exactly when the session lasted strictly more than `60 * 30`
seconds, and the loop sleeps 10 seconds while the counter is at most 10
and 300 seconds otherwise. -/
def open_client (max_retry : Nat) : Nat → List SessionEv → List Nat × ClientOutcome
  | reconnect_time, evs =>
    if max_retry ≤ reconnect_time then ([], .halted .retryTimeout)
    else
      match evs with
      | [] => ([], .running reconnect_time)
      | .danmuFail :: rest => open_client max_retry (reconnect_time + 1) rest
      | .connectFail :: _ => ([], .halted .ioError)
      | .sessionTxClose :: _ => ([], .halted .txClose)
      | .sessionFail secs :: rest =>
        let rt := reconnect_time + 1
        let rt := if secs > 60 * 30 then 0 else rt
        let time := if rt ≤ 10 then 10 else 300
        let r := open_client max_retry rt rest
        (time :: r.fst, r.snd)

/-! ## DANMU_MSG positional deserializer (message.rs lines 185-243)

serde_json's `Value` is modelled with integer numbers (the deserializer
only ever inspects numbers through `as_u64`, which is `None` for
negatives and values at or above `2 ^ 64`, and the claims only involve
integers). -/

inductive JValue where
  | null
  | bool (b : Bool)
  | num (n : Int)
  | str (s : String)
  | arr (items : List JValue)
deriving Repr

/-- Model of `serde_json::Number::as_u64`. -/
def asU64 : JValue → Option Nat
  | .num n => if 0 ≤ n ∧ n < 2 ^ 64 then some n.toNat else none
  | _ => none

/-- Model of `serde_json::Value::as_str`. -/
def asStr : JValue → Option String
  | .str s => some s
  | _ => none

structure DanmuMsg where
  uid : Nat
  uname : String
  guard_level : Nat
  medal_lv : Nat
  medal_name : String
  medal_owner_uid : Nat
  medal_owner_name : String
  text : String
deriving Repr, DecidableEq

/-- Model of `impl Deserialize for DanmuMsg`: the `info` value must be an
array matching the slice pattern
`[_, String(text), Array(user), Array(up), _, _, _, Number(guard_level), ..]`
(so at least eight elements with those shapes at the fixed positions),
otherwise the deserializer fails with `info format error` (or
`info type error` for a non-array). Within the matched `user` and `up`
arrays, missing or wrongly-typed elements degrade to `0` / `""` through
`unwrap_or` defaults; the `as u32` casts truncate modulo `2 ^ 32`. -/
def danmu_deserialize (info : JValue) : Except String DanmuMsg :=
  match info with
  | .arr items =>
    match items with
    | _ :: .str text :: .arr user :: .arr up :: _ :: _ :: _ :: .num guard_level :: _ =>
      let uid := ((user[0]?).bind asU64).getD 0
      let uname := ((user[1]?).bind asStr).getD ""
      let guard_level_u32 := ((asU64 (.num guard_level)).getD 0) % 2 ^ 32
      let card_lv := (((up[0]?).bind asU64).getD 0) % 2 ^ 32
      let card_name := ((up[1]?).bind asStr).getD ""
      let up_uid := ((up.getLast?).bind asU64).getD 0
      let up_name := ((up[2]?).bind asStr).getD ""
      .ok { uid := uid, uname := uname, guard_level := guard_level_u32,
            medal_lv := card_lv, medal_name := card_name,
            medal_owner_uid := up_uid, medal_owner_name := up_name, text := text }
    | _ => .error "info format error"
  | _ => .error "info type error"

/-! ## Credential construction (`UserToken::create_from_jar`, api/mod.rs
lines 78-108)

Cookie text is modelled as a list of characters (the three scanned
prefixes are ASCII, so Rust's byte-indexed `split_at` agrees with the
character-indexed drop). The reqwest jar is external: its observable
behaviour at this call site is `jar.cookies(&url)` returning nothing
(empty jar), a header value that fails `to_str`, or the serialized
`name=value; name=value` cookie string. -/

def COOKIE_USER_ID : List Char := ['D', 'e', 'd', 'e', 'U', 's', 'e', 'r', 'I', 'D', '=']

def COOKIE_SESSDATA : List Char := ['S', 'E', 'S', 'S', 'D', 'A', 'T', 'A', '=']

def COOKIE_BILI_JCT : List Char := ['b', 'i', 'l', 'i', '_', 'j', 'c', 't', '=']

structure UserToken where
  uid : List Char
  token : List Char
  csrf : List Char
deriving Repr, DecidableEq

inductive CheckCookieError where
  | emptyCookie
  | illegalCookie
  | cookieToStrError
deriving Repr, DecidableEq

/-- Observable states of `jar.cookies(&domain_url)` followed by `to_str`. -/
inductive JarCookies where
  | empty
  | undecodable
  | text (cookies : List Char)
deriving Repr

/-- Model of Rust's `str::split(";")` for the single-character separator:
splitting never yields an empty list, and empty fragments are kept. -/
def splitOnChar (sep : Char) : List Char → List (List Char)
  | [] => [[]]
  | c :: rest =>
    match splitOnChar sep rest with
    | [] => [[]]
    | group :: groups =>
      if c = sep then [] :: group :: groups else (c :: group) :: groups

/-- Model of `str::trim` (ASCII whitespace suffices for cookie strings). -/
def trimChars (l : List Char) : List Char :=
  ((l.dropWhile Char.isWhitespace).reverse.dropWhile Char.isWhitespace).reverse

/-- Loop body of `create_from_jar`: trim the entry, then the
`starts_with` / `split_at` chain over the three cookie prefixes. -/
def scanCookieStep (token : UserToken) (entry : List Char) : UserToken :=
  let c := trimChars entry
  if COOKIE_USER_ID.isPrefixOf c then { token with uid := c.drop COOKIE_USER_ID.length }
  else if COOKIE_SESSDATA.isPrefixOf c then { token with token := c.drop COOKIE_SESSDATA.length }
  else if COOKIE_BILI_JCT.isPrefixOf c then { token with csrf := c.drop COOKIE_BILI_JCT.length }
  else token

/-- Model of `UserToken::create_from_jar`. -/
def create_from_jar : JarCookies → Except CheckCookieError UserToken
  | .empty => .error .emptyCookie
  | .undecodable => .error .cookieToStrError
  | .text cookies =>
    let token := (splitOnChar ';' cookies).foldl scanCookieStep ⟨[], [], []⟩
    if token.uid = [] || token.token = [] || token.csrf = [] then .error .illegalCookie
    else .ok token

/-- Value of the named cookie as the scan loop leaves it: the value after
the prefix of the **last** trimmed `;`-separated entry carrying that
prefix (later entries overwrite earlier ones). -/
def cookieValue (name : List Char) (cookies : List Char) : Option (List Char) :=
  (((splitOnChar ';' cookies).map trimChars).reverse.find? (fun c => name.isPrefixOf c)).map
    (fun c => c.drop name.length)

/-! ## QR poll classification (`impl Into<Result<QrResult, QrResultError>>`,
api/mod.rs lines 161-174) -/

structure QrResult where
  url : String
  refresh_token : String
  timestamp : Nat
  code : Int
  message : String
deriving Repr, DecidableEq

inductive QrResultError where
  | notScaned
  | qrExpired
  | scanedNotConfirm
  | unknownError (code : Int) (message : String)
  | httpError
deriving Repr, DecidableEq

/-- Model of the `Into` conversion matching on `self.code`. -/
def qr_result_into (r : QrResult) : Except QrResultError QrResult :=
  if r.code = 86101 then .error .notScaned
  else if r.code = 86038 then .error .qrExpired
  else if r.code = 86090 then .error .scanedNotConfirm
  else if r.code = 0 then .ok r
  else .error (.unknownError r.code r.message)

/-! ## Login coordinator (`LoginManager::poll_login`, api/mod.rs lines 789-844)

`poll_login` is a single sequential task: its mpsc mailbox serializes
requests, and the `select!` between the inner request loop and the
spawned poll child offers exactly two alternatives. As with
`open_client`, the awaited interactions are scripted as events: a
`request` event is one `LoginUrlTx` arriving (carrying the scripted
`get_login_url` outcome, which is only consulted when the coordinator is
idle, and whether the requester's oneshot receiver is still open, i.e.
whether `tx.send` succeeds); `pollOk c` is the poll child finishing with
a usable client `c` (`code == 0` and data present), `pollNoData` the
child finishing with a non-zero envelope, `pollErr` the child finishing
with a `QrResultError`/transport error. Broadcast channels are given
identities by a counter incremented each time `broadcast::channel` runs;
the state tracks the pending `(login_url, channel)` pair and the number
of live subscribers of that channel (the `api_client_rx` handed out at
creation counts as the first). Poll events arriving while idle cannot
happen in the source (no child exists) and leave the model state
unchanged. -/

structure PollLoginState (U : Type) where
  pending : Option (U × Nat)
  next_chan : Nat
  subs : Nat
deriving Repr, DecidableEq

inductive LoginEv (U C : Type) where
  | request (gen : Option U) (receiver_open : Bool)
  | pollOk (c : C)
  | pollNoData
  | pollErr
deriving Repr

/-- Observable effects of one coordinator step: `reply url chan` is a
requester receiving a clone of the pending url together with a fresh
subscriber to channel `chan`; `replyErr` is the `Err` reply after
`get_login_url` exhausted its retries; `replyDropped` is a `tx.send`
whose receiver was gone; `broadcast chan subs c` is the single
`api_client_tx.send` delivering the one shared client `c` to the `subs`
current subscribers of channel `chan`; `broadcastDropped chan` is the
channel closing without a send (subscribers see a closed-channel error,
mapped to `LoginUrlTimeout` at the receivers). -/
inductive LoginOut (U C : Type) where
  | reply (url : U) (chan : Nat)
  | replyErr
  | replyDropped
  | broadcast (chan : Nat) (subs : Nat) (c : C)
  | broadcastDropped (chan : Nat)
deriving Repr, DecidableEq

/-- Model of one serialized step of `poll_login`. Idle + request: run
`get_login_url`; on failure reply `Err`; on success create the broadcast
channel and enter the pending state if the requester still listens
(otherwise the channel is dropped and the coordinator stays idle).
Pending + request: the inner `while let` loop replies with a clone of the
same pending url and a fresh subscriber of the same channel. Pending +
poll completion: a usable client is broadcast once to all subscribers;
otherwise the channel is dropped; either way the coordinator returns to
idle (`continue` of the outer loop). -/
def poll_login_step {U C : Type} (st : PollLoginState U) :
    LoginEv U C → PollLoginState U × List (LoginOut U C)
  | .request gen receiver_open =>
    match st.pending with
    | none =>
      match gen with
      | none => (st, [.replyErr])
      | some url =>
        if receiver_open then
          ({ pending := some (url, st.next_chan), next_chan := st.next_chan + 1, subs := 1 },
            [.reply url st.next_chan])
        else
          ({ st with next_chan := st.next_chan + 1 }, [.replyDropped])
    | some (url, ch) =>
      if receiver_open then ({ st with subs := st.subs + 1 }, [.reply url ch])
      else (st, [.replyDropped])
  | .pollOk c =>
    match st.pending with
    | none => (st, [])
    | some (_, ch) => (⟨none, st.next_chan, 0⟩, [.broadcast ch st.subs c])
  | .pollNoData =>
    match st.pending with
    | none => (st, [])
    | some (_, ch) => (⟨none, st.next_chan, 0⟩, [.broadcastDropped ch])
  | .pollErr =>
    match st.pending with
    | none => (st, [])
    | some (_, ch) => (⟨none, st.next_chan, 0⟩, [.broadcastDropped ch])

/-- Run of the coordinator over an event script, accumulating outputs. -/
def poll_login_run {U C : Type} (st : PollLoginState U) :
    List (LoginEv U C) → PollLoginState U × List (LoginOut U C)
  | [] => (st, [])
  | ev :: rest =>
    let r := poll_login_step st ev
    let r' := poll_login_run r.fst rest
    (r'.fst, r.snd ++ r'.snd)

/-! ## Concrete instantiations used by witnesses and counterexamples -/

/-- Inflater stub returning a fixed pair of frames, used to instantiate
the decoder theorems at concrete inputs. -/
def inflateFixed : List Nat → Except String (List Nat) := fun _ =>
  .ok (encodeServerFrame 0 3 1 [] ++ encodeServerFrame 0 8 1 [])

/-- Notification parse stub that always fails, for inputs whose frames
carry no operation-5 body. -/
def parseNone : List Nat → Except String Unit := fun _ => .error "e"

/-- Concrete serialized jar contents
`DedeUserID=42; SESSDATA=abc; bili_jct=xyz`. -/
def jarWitnessCookies : List Char :=
  COOKIE_USER_ID ++ ['4', '2'] ++ [';', ' '] ++ COOKIE_SESSDATA ++ ['a', 'b', 'c']
    ++ [';', ' '] ++ COOKIE_BILI_JCT ++ ['x', 'y', 'z']

/-! ## Arithmetic and list helper lemmas -/

theorem readU32_u32be (n : Nat) (rest : List Nat) :
    readU32 (u32be n ++ rest) = some (n % 2 ^ 32, rest) := by
  simp only [u32be, List.cons_append, List.nil_append, readU32, Option.some.injEq,
    Prod.mk.injEq, and_true]
  omega

theorem readU16_u16be (n : Nat) (rest : List Nat) :
    readU16 (u16be n ++ rest) = some (n % 2 ^ 16, rest) := by
  simp only [u16be, List.cons_append, List.nil_append, readU16, Option.some.injEq,
    Prod.mk.injEq, and_true]
  omega

theorem readHeader_encode (a b c d e : Nat) (body : List Nat) :
    readHeader (u32be a ++ (u16be b ++ (u16be c ++ (u32be d ++ (u32be e ++ body))))) =
      some (a % 2 ^ 32, b % 2 ^ 16, c % 2 ^ 16, d % 2 ^ 32, e % 2 ^ 32, body) := by
  simp only [readHeader, readU32_u32be, readU16_u16be]

/-- Helper: the loop body on a well-formed uncompressed frame (version 0
or 1, decodable operation, correct length fields) followed by `rest`
pushes the frame's message and leaves exactly `rest`. -/
theorem decodeStep_wf {N : Type} (inflate : List Nat → Except String (List Nat))
    (parse : List Nat → Except String N) (version op seq : Nat)
    (body rest : List Nat) (msg : ServerLiveMessage N)
    (hv : version ≤ 1) (hop : op < 2 ^ 32) (hlen : 16 + body.length < 2 ^ 32)
    (hmsg : frameMsg parse op body = some msg) :
    decodeStep inflate parse (encodeServerFrame version op seq body ++ rest) =
      .push msg rest := by
  have hvlt : version < 2 ^ 16 := by omega
  have h16 : (16 : Nat) % 2 ^ 16 = 16 := by decide
  have hlenmod : (16 + body.length) % 2 ^ 32 = 16 + body.length := Nat.mod_eq_of_lt hlen
  have hopmod : op % 2 ^ 32 = op := Nat.mod_eq_of_lt hop
  have hbody : (16 + body.length + 2 ^ 64 - 16) % 2 ^ 64 = body.length := by omega
  have htake : (body ++ rest).take body.length = body := by
    simp
  have hdrop : (body ++ rest).drop body.length = rest := by
    simp
  have hrepl : List.replicate (body.length - (body ++ rest).length) (0 : Nat) = [] := by
    simp [List.length_append]
  have hv2 : ¬ version = 2 := by omega
  have hv2' : ¬ version > 2 := by omega
  match op, hmsg with
  | 3, hmsg =>
    simp only [frameMsg, Option.some.injEq] at hmsg
    simp only [encodeServerFrame, List.append_assoc, decodeStep, readHeader_encode,
      hlenmod, Nat.mod_eq_of_lt hvlt, hopmod, h16, hv2, if_false, hv2',
      hbody, htake, hdrop, hrepl, List.append_nil, ← hmsg]
  | 5, hmsg =>
    simp only [frameMsg] at hmsg
    match hp : parse body with
    | .ok m =>
      rw [hp] at hmsg
      simp only [Option.some.injEq] at hmsg
      simp only [encodeServerFrame, List.append_assoc, decodeStep, readHeader_encode,
        hlenmod, Nat.mod_eq_of_lt hvlt, hopmod, h16, hv2, if_false, hv2',
        hbody, htake, hdrop, hrepl, List.append_nil, hp, ← hmsg]
    | .error e => rw [hp] at hmsg; simp at hmsg
  | 8, hmsg =>
    simp only [frameMsg, Option.some.injEq] at hmsg
    simp only [encodeServerFrame, List.append_assoc, decodeStep, readHeader_encode,
      hlenmod, Nat.mod_eq_of_lt hvlt, hopmod, h16, hv2, if_false, hv2',
      hbody, htake, hdrop, hrepl, List.append_nil, ← hmsg]

/-- Helper: the loop body on a version-2 frame hands the whole remaining
buffer to the inflater, whatever the declared total length `L` and header
length `H` say. -/
theorem decodeStep_v2 {N : Type} (inflate : List Nat → Except String (List Nat))
    (parse : List Nat → Except String N) (L H op seq : Nat)
    (rest : List Nat) :
    decodeStep inflate parse
        (u32be L ++ (u16be H ++ (u16be 2 ++ (u32be op ++ (u32be seq ++ rest))))) =
      match inflate rest with
      | .error e => (.fail (.inflateError e) : DecodeStep N)
      | .ok new_data => .inflated new_data := by
  have h2 : (2 : Nat) % 2 ^ 16 = 2 := by decide
  simp only [decodeStep, readHeader_encode, h2, if_pos]

/-- Helper: unfolding of one loop iteration of `decode_from_server`. -/
theorem decode_from_server_succ {N : Type} (inflate : List Nat → Except String (List Nat))
    (parse : List Nat → Except String N) (fuel : Nat) (data : List Nat)
    (acc : List (ServerLiveMessage N)) :
    decode_from_server inflate parse (fuel + 1) data acc =
      match decodeStep inflate parse data with
      | .fail e => some (acc, some e)
      | .inflated new_data => decode_from_server inflate parse fuel new_data acc
      | .push msg remaining =>
        if remaining = [] then some (acc ++ [msg], none)
        else decode_from_server inflate parse fuel remaining (acc ++ [msg]) := by
  rfl

/-! ## Claim theorems -/

/-- C1: the heartbeat encoding evaluated. The encoded frame is 31 bytes and
ends with the ASCII of `[object Object]`, but its first four bytes are
`00 00 00 10` (the header-length constant written twice), not the total
frame length `00 00 00 1F` that the frame layout prescribes and that the
login branch writes for its own frame. -/
theorem heartbeat_encode_bytes :
    ClientLiveMessage.encode .clientHeartBeat =
      [0, 0, 0, 16, 0, 16, 0, 1, 0, 0, 0, 2, 0, 0, 0, 1,
       91, 111, 98, 106, 101, 99, 116, 32, 79, 98, 106, 101, 99, 116, 93] ∧
    (ClientLiveMessage.encode .clientHeartBeat).length = 31 ∧
    (ClientLiveMessage.encode .clientHeartBeat).take 4 ≠ [0, 0, 0, 31] := by
  refine ⟨?_, ?_, ?_⟩ <;> decide

/-- C8: framing of the Login frame. For every `Login(room, uid, key)` the
encoded buffer has length `16 + len(json_body)`, its first four bytes are
the total length big-endian, bytes 4-5 are 0x0010, bytes 6-7 are 0x0001,
bytes 8-11 are 0x00000007, bytes 12-15 are 0x00000001, the body is the
JSON payload, and the payload carries `uid` as `null` exactly when
`uid = 0` and as the decimal number otherwise. -/
theorem login_encode_framing (room_id uid : Nat) (key : String)
    (_h : 16 + (utf8Bytes (loginPayload room_id uid key)).length < 2 ^ 32) :
    (ClientLiveMessage.encode (.login ⟨room_id, uid, key⟩)).length =
      16 + (utf8Bytes (loginPayload room_id uid key)).length ∧
    (ClientLiveMessage.encode (.login ⟨room_id, uid, key⟩)).take 4 =
      u32be (ClientLiveMessage.encode (.login ⟨room_id, uid, key⟩)).length ∧
    ((ClientLiveMessage.encode (.login ⟨room_id, uid, key⟩)).drop 4).take 2 = [0, 16] ∧
    ((ClientLiveMessage.encode (.login ⟨room_id, uid, key⟩)).drop 6).take 2 = [0, 1] ∧
    ((ClientLiveMessage.encode (.login ⟨room_id, uid, key⟩)).drop 8).take 4 = [0, 0, 0, 7] ∧
    ((ClientLiveMessage.encode (.login ⟨room_id, uid, key⟩)).drop 12).take 4 = [0, 0, 0, 1] ∧
    (ClientLiveMessage.encode (.login ⟨room_id, uid, key⟩)).drop 16 =
      utf8Bytes (loginPayload room_id uid key) ∧
    (uid = 0 →
      loginPayload room_id uid key =
        "\x7b\"key\":\"" ++ jsonEscape key ++ "\",\"platform\":\"web\",\"protover\":2,\"roomid\":"
          ++ toString room_id ++ ",\"type\":2,\"uid\":null\x7d") ∧
    (uid ≠ 0 →
      loginPayload room_id uid key =
        "\x7b\"key\":\"" ++ jsonEscape key ++ "\",\"platform\":\"web\",\"protover\":2,\"roomid\":"
          ++ toString room_id ++ ",\"type\":2,\"uid\":" ++ toString uid ++ "\x7d") := by
  have h16 : u16be 16 = [0, 16] := by decide
  have h1 : u16be 1 = [0, 1] := by decide
  have h7 : u32be 7 = [0, 0, 0, 7] := by decide
  have hone : u32be 1 = [0, 0, 0, 1] := by decide
  refine ⟨?_, ?_, ?_, ?_, ?_, ?_, ?_, ?_, ?_⟩
  · simp [ClientLiveMessage.encode, u32be, u16be]
    omega
  · simp [ClientLiveMessage.encode, h16, h1, h7, hone, u32be, List.take]
    omega
  · simp [ClientLiveMessage.encode, h16, h1, h7, hone, u32be, List.take, List.drop]
  · simp [ClientLiveMessage.encode, h16, h1, h7, hone, u32be, List.take, List.drop]
  · simp [ClientLiveMessage.encode, h16, h1, h7, hone, u32be, List.take, List.drop]
  · simp [ClientLiveMessage.encode, h16, h1, h7, hone, u32be, List.take, List.drop]
  · simp [ClientLiveMessage.encode, h16, h1, h7, hone, u32be, List.drop]
  · intro hu
    simp only [loginPayload, hu, gt_iff_lt, lt_self_iff_false, if_false, String.append_assoc]
    rfl
  · intro hu
    have hpos : uid > 0 := Nat.pos_of_ne_zero hu
    simp only [loginPayload, hpos, gt_iff_lt, if_true, String.append_assoc]

/-- C8 witness: the framing theorem applied at `Login(1, 0, "k")`. -/
theorem login_encode_framing_witness :
    16 + (utf8Bytes (loginPayload 1 0 "k")).length < 2 ^ 32 ∧
    (ClientLiveMessage.encode (.login ⟨1, 0, "k"⟩)).length =
      16 + (utf8Bytes (loginPayload 1 0 "k")).length :=
  ⟨by decide, (login_encode_framing 1 0 "k" (by decide)).1⟩

/-- Helper: decoding the concatenation of two well-formed uncompressed
frames appends exactly their two messages, in wire order. -/
theorem decode_two_frames {N : Type} (inflate : List Nat → Except String (List Nat))
    (parse : List Nat → Except String N) (vA vB opA opB seqA seqB : Nat)
    (bodyA bodyB : List Nat) (mA mB : ServerLiveMessage N)
    (acc : List (ServerLiveMessage N))
    (hvA : vA ≤ 1) (hvB : vB ≤ 1) (hopA : opA < 2 ^ 32) (hopB : opB < 2 ^ 32)
    (hlA : 16 + bodyA.length < 2 ^ 32) (hlB : 16 + bodyB.length < 2 ^ 32)
    (hmA : frameMsg parse opA bodyA = some mA) (hmB : frameMsg parse opB bodyB = some mB)
    (fuel : Nat) :
    decode_from_server inflate parse (fuel + 2)
        (encodeServerFrame vA opA seqA bodyA ++ encodeServerFrame vB opB seqB bodyB) acc =
      some (acc ++ [mA, mB], none) := by
  have step1 := decodeStep_wf inflate parse vA opA seqA bodyA
    (encodeServerFrame vB opB seqB bodyB) mA hvA hopA hlA hmA
  have step2 : decodeStep inflate parse (encodeServerFrame vB opB seqB bodyB) =
      .push mB [] := by
    simpa using decodeStep_wf inflate parse vB opB seqB bodyB [] mB hvB hopB hlB hmB
  have hne : encodeServerFrame vB opB seqB bodyB ≠ [] := by
    simp [encodeServerFrame, u32be]
  have hfuel : fuel + 2 = fuel + 1 + 1 := rfl
  simp only [hfuel, decode_from_server_succ, step1, step2]
  simp [hne]

/-- C3: decoding preserves wire order. For any two well-formed uncompressed
server frames A and B (version 0 or 1; operations 3, 5 or 8, where an
operation-5 body must parse), decoding `encode(A) ++ encode(B)` appends
exactly `[A, B]` in that order, and decoding a single version-2 frame
whose body inflates to `encode(A) ++ encode(B)` also appends `[A, B]` in
that order. -/
theorem decode_concat_order {N : Type} (inflate : List Nat → Except String (List Nat))
    (parse : List Nat → Except String N) (vA vB opA opB seqA seqB : Nat)
    (bodyA bodyB : List Nat) (mA mB : ServerLiveMessage N)
    (acc : List (ServerLiveMessage N))
    (hvA : vA ≤ 1) (hvB : vB ≤ 1) (hopA : opA < 2 ^ 32) (hopB : opB < 2 ^ 32)
    (hlA : 16 + bodyA.length < 2 ^ 32) (hlB : 16 + bodyB.length < 2 ^ 32)
    (hmA : frameMsg parse opA bodyA = some mA) (hmB : frameMsg parse opB bodyB = some mB)
    (fuel : Nat) :
    decode_from_server inflate parse (fuel + 2)
        (encodeServerFrame vA opA seqA bodyA ++ encodeServerFrame vB opB seqB bodyB) acc =
      some (acc ++ [mA, mB], none) ∧
    ∀ (cbody : List Nat) (opC seqC : Nat),
      inflate cbody =
          .ok (encodeServerFrame vA opA seqA bodyA ++ encodeServerFrame vB opB seqB bodyB) →
      decode_from_server inflate parse (fuel + 3) (encodeServerFrame 2 opC seqC cbody) acc =
        some (acc ++ [mA, mB], none) := by
  refine ⟨decode_two_frames inflate parse vA vB opA opB seqA seqB bodyA bodyB mA mB acc
    hvA hvB hopA hopB hlA hlB hmA hmB fuel, ?_⟩
  intro cbody opC seqC hinf
  have hsplit : encodeServerFrame 2 opC seqC cbody =
      u32be (16 + cbody.length) ++ (u16be 16 ++ (u16be 2 ++ (u32be opC
        ++ (u32be seqC ++ cbody)))) := by
    simp [encodeServerFrame, List.append_assoc]
  have hfuel : fuel + 3 = fuel + 2 + 1 := rfl
  simp only [hfuel, decode_from_server_succ, hsplit, decodeStep_v2, hinf]
  exact decode_two_frames inflate parse vA vB opA opB seqA seqB bodyA bodyB mA mB acc
    hvA hvB hopA hopB hlA hlB hmA hmB fuel

/-- C3 witness: the ordering theorem applied to a server heartbeat followed
by a login ack, both directly concatenated and through a version-2 frame
whose stubbed inflation yields that concatenation. -/
theorem decode_concat_order_witness :
    decode_from_server inflateFixed parseNone 2
        (encodeServerFrame 0 3 1 [] ++ encodeServerFrame 0 8 1 []) [] =
      some ([ServerLiveMessage.serverHeartBeat, ServerLiveMessage.loginAck], none) ∧
    decode_from_server inflateFixed parseNone 3 (encodeServerFrame 2 5 1 [7]) [] =
      some ([ServerLiveMessage.serverHeartBeat, ServerLiveMessage.loginAck], none) := by
  have h := decode_concat_order inflateFixed parseNone 0 0 3 8 1 1 [] []
    .serverHeartBeat .loginAck [] (by decide) (by decide) (by decide) (by decide)
    (by decide) (by decide) rfl rfl 0
  exact ⟨by simpa using h.1, by simpa using h.2 [7] 5 1 rfl⟩

/-- C9: when the decoder meets a frame whose header declares version 2, the
entire remaining input — here `declared_body ++ extra`, where the header's
total-length field covers only `declared_body` — is handed to the zlib
inflater, so a further frame concatenated after the version-2 frame is
never decoded as a separate top-level frame; the result is entirely
determined by inflating the whole remainder. -/
theorem v2_consumes_whole_buffer {N : Type} (inflate : List Nat → Except String (List Nat))
    (parse : List Nat → Except String N) (fuel opv seqv : Nat)
    (declared_body extra : List Nat) (acc : List (ServerLiveMessage N)) :
    decode_from_server inflate parse (fuel + 1)
        (encodeServerFrame 2 opv seqv declared_body ++ extra) acc =
      match inflate (declared_body ++ extra) with
      | .error e => some (acc, some (.inflateError e))
      | .ok new_data => decode_from_server inflate parse fuel new_data acc := by
  have hsplit : encodeServerFrame 2 opv seqv declared_body ++ extra =
      u32be (16 + declared_body.length) ++ (u16be 16 ++ (u16be 2 ++ (u32be opv
        ++ (u32be seqv ++ (declared_body ++ extra))))) := by
    simp [encodeServerFrame, List.append_assoc]
  rw [decode_from_server_succ, hsplit]
  simp only [decodeStep_v2]
  cases hi : inflate (declared_body ++ extra) <;> simp [hi]

/-- C5 counterexample: a buffer holding one well-formed server-heartbeat
frame followed by a stray byte fails to decode with `BadHeader`, yet the
read loop still forwards the heartbeat decoded from that same buffer —
the offending buffer is not dropped as a whole. -/
theorem decode_error_buffer_not_dropped_cex :
    decode_from_server inflateFixed parseNone 2 (encodeServerFrame 0 3 1 [] ++ [0]) [] =
      some ([ServerLiveMessage.serverHeartBeat], some .badHeader) ∧
    loop_handle_msg_step inflateFixed parseNone 2 true
        (.binary (encodeServerFrame 0 3 1 [] ++ [0])) =
      .forwarded [ServerLiveMessage.serverHeartBeat] ∧
    HandleResult.forwarded [ServerLiveMessage.serverHeartBeat] ≠
      (.forwarded [] : HandleResult Unit) := by
  refine ⟨by decide, by decide, by decide⟩

/-- C5 (amended): a decode failure of any kind never terminates the
session — the iteration result is `forwarded`, so the read loop continues
with the next buffer — but the buffer is only dropped from the point of
the error onward: every message the decoder accumulated before failing is
still forwarded to the consumer. -/
theorem decode_error_continues_session {N : Type}
    (inflate : List Nat → Except String (List Nat)) (parse : List Nat → Except String N)
    (fuel : Nat) (bin : List Nat) (msgs : List (ServerLiveMessage N)) (e : MsgDecodeError)
    (h : decode_from_server inflate parse fuel bin [] = some (msgs, some e)) :
    loop_handle_msg_step inflate parse fuel true (.binary bin) = .forwarded msgs := by
  simp [loop_handle_msg_step, h]

/-- C5 witness: the amended theorem applied to a login-ack frame followed
by three stray bytes. -/
theorem decode_error_continues_session_witness :
    loop_handle_msg_step inflateFixed parseNone 2 true
        (.binary (encodeServerFrame 0 8 1 [] ++ [1, 2, 3])) =
      .forwarded [ServerLiveMessage.loginAck] :=
  decode_error_continues_session inflateFixed parseNone 2
    (encodeServerFrame 0 8 1 [] ++ [1, 2, 3]) [ServerLiveMessage.loginAck] .badHeader
    (by decide)

/-- C4 counterexample: with `max_retry = 100`, eleven quick failed sessions
followed by a session of exactly 1800 seconds and another quick failure.
The claim (reset whenever a session lasted ≥ 1800 s) predicts the sleep
after the 1800-second session to be 10 s at a reset counter; the code
resets only for strictly more than 1800 seconds, so that sleep (index 11)
is 300 s. -/
theorem backoff_reset_boundary_cex :
    (open_client 100 0 (List.replicate 11 (SessionEv.sessionFail 0)
        ++ [SessionEv.sessionFail 1800, SessionEv.sessionFail 0])).fst =
      [10, 10, 10, 10, 10, 10, 10, 10, 10, 10, 300, 300, 300] ∧
    (open_client 100 0 (List.replicate 11 (SessionEv.sessionFail 0)
        ++ [SessionEv.sessionFail 1800, SessionEv.sessionFail 0])).fst[11]? = some 300 ∧
    some (300 : Nat) ≠ some 10 := by
  refine ⟨by decide, by decide, by decide⟩

/-- Helper: unfolding of one supervisor iteration on a failed session
below the retry bound: the counter resets exactly when the session lasted
strictly more than `60 * 30` seconds, and the sleep is 10 s while the new
counter is at most 10 and 300 s otherwise. -/
theorem open_client_sessionFail (m rt secs : Nat) (rest : List SessionEv) (h : rt < m) :
    open_client m rt (.sessionFail secs :: rest) =
      ((if (if secs > 60 * 30 then 0 else rt + 1) ≤ 10 then 10 else 300)
          :: (open_client m (if secs > 60 * 30 then 0 else rt + 1) rest).fst,
        (open_client m (if secs > 60 * 30 then 0 else rt + 1) rest).snd) := by
  have hn : ¬ m ≤ rt := by omega
  simp only [open_client, hn, if_false]

/-- Helper: starting `k` consecutive quick failed sessions away from the
retry bound ends in `RetryTimeout`. -/
theorem open_client_timeout_replicate (m : Nat) :
    ∀ (k rt : Nat), rt + k = m →
      (open_client m rt (List.replicate k (SessionEv.sessionFail 0))).snd =
        .halted .retryTimeout := by
  intro k
  induction k with
  | zero =>
    intro rt h
    have hm : m ≤ rt := by omega
    simp [open_client, hm]
  | succ k ih =>
    intro rt h
    have hlt : rt < m := by omega
    rw [List.replicate_succ, open_client_sessionFail m rt 0 _ hlt]
    simpa using ih (rt + 1) (by omega)

/-- C4 (amended): the retry policy of `open_client` — `RetryTimeout` once
the counter reaches `max_retry`, and in particular after `max_retry`
consecutive quick failed sessions from a fresh start; each failed session
increments the counter, resets it to zero exactly when the session lasted
**strictly more than** 1800 seconds, and sleeps 10 s while the counter is
at most 10 and 300 s beyond; after a session of more than 1800 seconds the
very next failure sleeps 10 s at retry index 1. -/
theorem open_client_backoff_policy :
    (∀ (m rt : Nat) (evs : List SessionEv), m ≤ rt →
      open_client m rt evs = ([], .halted .retryTimeout)) ∧
    (∀ (m rt secs : Nat) (rest : List SessionEv), rt < m →
      open_client m rt (.sessionFail secs :: rest) =
        ((if (if secs > 60 * 30 then 0 else rt + 1) ≤ 10 then 10 else 300)
            :: (open_client m (if secs > 60 * 30 then 0 else rt + 1) rest).fst,
          (open_client m (if secs > 60 * 30 then 0 else rt + 1) rest).snd)) ∧
    (∀ m : Nat, (open_client m 0 (List.replicate m (SessionEv.sessionFail 0))).snd =
      .halted .retryTimeout) ∧
    (∀ (m rt secs secs' : Nat) (rest : List SessionEv), rt < m → 60 * 30 < secs →
      secs' ≤ 60 * 30 →
      (open_client m rt (.sessionFail secs :: .sessionFail secs' :: rest)).fst.take 2 =
        [10, 10]) := by
  refine ⟨?_, ?_, ?_, ?_⟩
  · intro m rt evs h
    rw [open_client.eq_def]
    simp [h]
  · intro m rt secs rest h
    exact open_client_sessionFail m rt secs rest h
  · intro m
    exact open_client_timeout_replicate m m 0 (by omega)
  · intro m rt secs secs' rest h1 h2 h3
    rw [open_client_sessionFail m rt secs _ h1]
    have hr : (if secs > 60 * 30 then 0 else rt + 1) = 0 := if_pos h2
    rw [hr, open_client_sessionFail m 0 secs' rest (by omega)]
    have hr' : (if secs' > 60 * 30 then 0 else 0 + 1) = 1 := by
      have : ¬ secs' > 60 * 30 := by omega
      simp [this]
    rw [hr']
    simp

/-- C4 witness: the policy theorem applied at concrete retry bounds,
counters and session lengths. -/
theorem open_client_backoff_policy_witness :
    open_client 3 3 [] = ([], .halted .retryTimeout) ∧
    open_client 5 0 [SessionEv.sessionFail 2000] = ([10], .running 0) ∧
    (open_client 2 0 (List.replicate 2 (SessionEv.sessionFail 0))).snd =
      .halted .retryTimeout ∧
    (open_client 5 0 [SessionEv.sessionFail 2000, SessionEv.sessionFail 0]).fst.take 2 =
      [10, 10] := by
  refine ⟨open_client_backoff_policy.1 3 3 [] (by decide), ?_,
    open_client_backoff_policy.2.2.1 2,
    open_client_backoff_policy.2.2.2 5 0 2000 0 [] (by decide) (by decide) (by decide)⟩
  rw [open_client_backoff_policy.2.1 5 0 2000 [] (by decide)]
  decide

/-- C2 counterexample: a DANMU_MSG info array with only seven elements
(the guard-level slot at index 7 is missing). The claim predicts the
missing field to degrade to zero with the parse succeeding; the
deserializer's slice pattern requires at least eight elements, so the
parse fails instead. -/
theorem danmu_missing_element_fails :
    danmu_deserialize (.arr [.null, .str "hello", .arr [.num 7, .str "alice"],
        .arr [.num 5, .str "fan-club", .str "host", .num 0, .num 0, .num 0, .num 100],
        .null, .null, .null]) = .error "info format error" ∧
    ∀ m : DanmuMsg,
      danmu_deserialize (.arr [.null, .str "hello", .arr [.num 7, .str "alice"],
          .arr [.num 5, .str "fan-club", .str "host", .num 0, .num 0, .num 0, .num 100],
          .null, .null, .null]) ≠ .ok m := by
  refine ⟨rfl, fun m hm => ?_⟩
  exact Except.noConfusion
    (hm.symm.trans (show danmu_deserialize _ = Except.error "info format error" from rfl))

/-- C2 (amended): the DANMU_MSG parser extracts fields by fixed position
exactly as in the literal scenario; within the matched inner arrays
(index 2 and index 3) missing elements degrade to zero or the empty
string; but the outer info array must offer at least eight elements with
a string at index 1, arrays at indices 2 and 3 and a number at index 7 —
an info array short of that (here: seven elements) fails the parse
instead of degrading. -/
theorem danmu_positional_parse :
    danmu_deserialize (.arr [.null, .str "hello", .arr [.num 7, .str "alice"],
        .arr [.num 5, .str "fan-club", .str "host", .num 0, .num 0, .num 0, .num 100],
        .null, .null, .null, .num 2]) =
      .ok { uid := 7, uname := "alice", guard_level := 2, medal_lv := 5,
            medal_name := "fan-club", medal_owner_uid := 100, medal_owner_name := "host",
            text := "hello" } ∧
    (∀ (x0 x4 x5 x6 : JValue) (text : String) (user up : List JValue) (g : Int)
        (rest : List JValue),
      danmu_deserialize (.arr (x0 :: .str text :: .arr user :: .arr up
          :: x4 :: x5 :: x6 :: .num g :: rest)) =
        .ok { uid := ((user[0]?).bind asU64).getD 0,
              uname := ((user[1]?).bind asStr).getD "",
              guard_level := ((asU64 (.num g)).getD 0) % 2 ^ 32,
              medal_lv := (((up[0]?).bind asU64).getD 0) % 2 ^ 32,
              medal_name := ((up[1]?).bind asStr).getD "",
              medal_owner_uid := ((up.getLast?).bind asU64).getD 0,
              medal_owner_name := ((up[2]?).bind asStr).getD "",
              text := text }) ∧
    (∀ (x0 x4 x5 x6 : JValue) (text : String) (user up : List JValue),
      danmu_deserialize (.arr [x0, .str text, .arr user, .arr up, x4, x5, x6]) =
        .error "info format error") := by
  refine ⟨by rfl, fun x0 x4 x5 x6 text user up g rest => rfl,
    fun x0 x4 x5 x6 text user up => rfl⟩

/-- Helper: a nonempty prefix determines the head of the list. -/
theorem prefix_head_eq {a : Char} {as c : List Char} (h : (a :: as).isPrefixOf c) :
    c.head? = some a := by
  cases c with
  | nil => simp [List.isPrefixOf] at h
  | cons x xs =>
    simp [List.isPrefixOf] at h
    simp [h.1]

/-- Helper: the three scanned cookie prefixes start with distinct
characters, so no entry matches two of them. -/
theorem cookie_prefix_exclusive (c : List Char) :
    (COOKIE_USER_ID.isPrefixOf c → COOKIE_SESSDATA.isPrefixOf c → False) ∧
    (COOKIE_USER_ID.isPrefixOf c → COOKIE_BILI_JCT.isPrefixOf c → False) ∧
    (COOKIE_SESSDATA.isPrefixOf c → COOKIE_BILI_JCT.isPrefixOf c → False) := by
  refine ⟨fun h1 h2 => ?_, fun h1 h2 => ?_, fun h1 h2 => ?_⟩ <;>
  · have e1 := prefix_head_eq h1
    have e2 := prefix_head_eq h2
    rw [e1] at e2
    simp at e2

/-- Helper: a left fold of the scan step computes each field from the
last matching entry (later entries overwrite earlier ones). -/
theorem foldl_scanCookieStep_field (p : List Char → Bool) (v : List Char → List Char)
    (g : UserToken → List Char)
    (hstep : ∀ (t : UserToken) (e : List Char),
      g (scanCookieStep t e) = if p (trimChars e) then v (trimChars e) else g t) :
    ∀ (l : List (List Char)) (init : UserToken),
      g (l.foldl scanCookieStep init) =
        match (l.map trimChars).reverse.find? p with
        | some c => v c
        | none => g init := by
  intro l
  induction l with
  | nil => intro init; simp
  | cons e l ih =>
    intro init
    simp only [List.foldl_cons, List.map_cons, List.reverse_cons, List.find?_append]
    rw [ih (scanCookieStep init e)]
    cases hf : (l.map trimChars).reverse.find? p with
    | some c => simp
    | none =>
      cases hpe : p (trimChars e) <;> simp [List.find?, hpe, hstep init e]

theorem scanCookieStep_uid (t : UserToken) (e : List Char) :
    (scanCookieStep t e).uid =
      if COOKIE_USER_ID.isPrefixOf (trimChars e) then
        (trimChars e).drop COOKIE_USER_ID.length
      else t.uid := by
  by_cases h1 : COOKIE_USER_ID.isPrefixOf (trimChars e) <;>
    by_cases h2 : COOKIE_SESSDATA.isPrefixOf (trimChars e) <;>
      by_cases h3 : COOKIE_BILI_JCT.isPrefixOf (trimChars e) <;>
        simp [scanCookieStep, h1, h2, h3]

theorem scanCookieStep_token (t : UserToken) (e : List Char) :
    (scanCookieStep t e).token =
      if COOKIE_SESSDATA.isPrefixOf (trimChars e) then
        (trimChars e).drop COOKIE_SESSDATA.length
      else t.token := by
  by_cases h1 : COOKIE_USER_ID.isPrefixOf (trimChars e)
  · have h2 : ¬ COOKIE_SESSDATA.isPrefixOf (trimChars e) := fun h2 =>
      (cookie_prefix_exclusive (trimChars e)).1 h1 h2
    simp [scanCookieStep, h1, h2]
  · by_cases h2 : COOKIE_SESSDATA.isPrefixOf (trimChars e) <;>
      by_cases h3 : COOKIE_BILI_JCT.isPrefixOf (trimChars e) <;>
        simp [scanCookieStep, h1, h2, h3]

theorem scanCookieStep_csrf (t : UserToken) (e : List Char) :
    (scanCookieStep t e).csrf =
      if COOKIE_BILI_JCT.isPrefixOf (trimChars e) then
        (trimChars e).drop COOKIE_BILI_JCT.length
      else t.csrf := by
  by_cases h3 : COOKIE_BILI_JCT.isPrefixOf (trimChars e)
  · have h1 : ¬ COOKIE_USER_ID.isPrefixOf (trimChars e) := fun h1 =>
      (cookie_prefix_exclusive (trimChars e)).2.1 h1 h3
    have h2 : ¬ COOKIE_SESSDATA.isPrefixOf (trimChars e) := fun h2 =>
      (cookie_prefix_exclusive (trimChars e)).2.2 h2 h3
    simp [scanCookieStep, h1, h2, h3]
  · by_cases h1 : COOKIE_USER_ID.isPrefixOf (trimChars e) <;>
      by_cases h2 : COOKIE_SESSDATA.isPrefixOf (trimChars e) <;>
        simp [scanCookieStep, h1, h2, h3]

theorem create_fold_uid (cookies : List Char) :
    ((splitOnChar ';' cookies).foldl scanCookieStep ⟨[], [], []⟩).uid =
      (cookieValue COOKIE_USER_ID cookies).getD [] := by
  rw [foldl_scanCookieStep_field (fun c => COOKIE_USER_ID.isPrefixOf c)
    (fun c => c.drop COOKIE_USER_ID.length) (fun t => t.uid) scanCookieStep_uid]
  unfold cookieValue
  cases hf : ((splitOnChar ';' cookies).map trimChars).reverse.find?
      (fun c => COOKIE_USER_ID.isPrefixOf c) <;> simp [hf]

theorem create_fold_token (cookies : List Char) :
    ((splitOnChar ';' cookies).foldl scanCookieStep ⟨[], [], []⟩).token =
      (cookieValue COOKIE_SESSDATA cookies).getD [] := by
  rw [foldl_scanCookieStep_field (fun c => COOKIE_SESSDATA.isPrefixOf c)
    (fun c => c.drop COOKIE_SESSDATA.length) (fun t => t.token) scanCookieStep_token]
  unfold cookieValue
  cases hf : ((splitOnChar ';' cookies).map trimChars).reverse.find?
      (fun c => COOKIE_SESSDATA.isPrefixOf c) <;> simp [hf]

theorem create_fold_csrf (cookies : List Char) :
    ((splitOnChar ';' cookies).foldl scanCookieStep ⟨[], [], []⟩).csrf =
      (cookieValue COOKIE_BILI_JCT cookies).getD [] := by
  rw [foldl_scanCookieStep_field (fun c => COOKIE_BILI_JCT.isPrefixOf c)
    (fun c => c.drop COOKIE_BILI_JCT.length) (fun t => t.csrf) scanCookieStep_csrf]
  unfold cookieValue
  cases hf : ((splitOnChar ';' cookies).map trimChars).reverse.find?
      (fun c => COOKIE_BILI_JCT.isPrefixOf c) <;> simp [hf]

/-- C6: credential construction from a jar. An empty jar yields
`EmptyCookie` and undecodable cookie text yields the conversion error;
when all three cookie names occur among the trimmed `;`-separated entries
with non-empty values, construction succeeds and the returned fields are
exactly the values after the `name=` prefixes (of the last matching
entry, matching the scan loop's overwrite); when any of the three values
is absent or empty the result is `IllegalCookie`. -/
theorem create_from_jar_spec :
    create_from_jar .empty = .error .emptyCookie ∧
    create_from_jar .undecodable = .error .cookieToStrError ∧
    (∀ (cookies u t c : List Char),
      cookieValue COOKIE_USER_ID cookies = some u → u ≠ [] →
      cookieValue COOKIE_SESSDATA cookies = some t → t ≠ [] →
      cookieValue COOKIE_BILI_JCT cookies = some c → c ≠ [] →
      create_from_jar (.text cookies) = .ok ⟨u, t, c⟩) ∧
    (∀ cookies : List Char,
      (cookieValue COOKIE_USER_ID cookies).getD [] = [] ∨
      (cookieValue COOKIE_SESSDATA cookies).getD [] = [] ∨
      (cookieValue COOKIE_BILI_JCT cookies).getD [] = [] →
      create_from_jar (.text cookies) = .error .illegalCookie) := by
  refine ⟨rfl, rfl, ?_, ?_⟩
  · intro cookies u t c hu hune ht htne hc hcne
    have fu : ((splitOnChar ';' cookies).foldl scanCookieStep ⟨[], [], []⟩).uid = u := by
      rw [create_fold_uid, hu]; rfl
    have ft : ((splitOnChar ';' cookies).foldl scanCookieStep ⟨[], [], []⟩).token = t := by
      rw [create_fold_token, ht]; rfl
    have fc : ((splitOnChar ';' cookies).foldl scanCookieStep ⟨[], [], []⟩).csrf = c := by
      rw [create_fold_csrf, hc]; rfl
    have hrec : (splitOnChar ';' cookies).foldl scanCookieStep
        (⟨[], [], []⟩ : UserToken) = ⟨u, t, c⟩ := by
      rw [← fu, ← ft, ← fc]
    simp only [create_from_jar, hrec]
    simp [hune, htne, hcne]
  · intro cookies hv
    simp only [create_from_jar]
    rcases hv with h | h | h
    · simp [create_fold_uid, h]
    · simp [create_fold_token, h]
    · simp [create_fold_csrf, h]

/-- C6 witness: the soundness direction applied to the serialized jar
`DedeUserID=42; SESSDATA=abc; bili_jct=xyz`. -/
theorem create_from_jar_spec_witness :
    create_from_jar (.text jarWitnessCookies) =
      .ok ⟨['4', '2'], ['a', 'b', 'c'], ['x', 'y', 'z']⟩ :=
  create_from_jar_spec.2.2.1 jarWitnessCookies ['4', '2'] ['a', 'b', 'c'] ['x', 'y', 'z']
    (by decide) (by decide) (by decide) (by decide) (by decide) (by decide)

/-- C7: classification of a QR poll result by its `code` field is total
and exact — 0 succeeds with the result itself, 86101 is `NotScaned`,
86090 is `ScanedNotConfirm`, 86038 is `QrExpired`, and every other code
is an `UnknownError` carrying the code and the server message. -/
theorem qr_result_code_classification (r : QrResult) :
    (r.code = 0 → qr_result_into r = .ok r) ∧
    (r.code = 86101 → qr_result_into r = .error .notScaned) ∧
    (r.code = 86090 → qr_result_into r = .error .scanedNotConfirm) ∧
    (r.code = 86038 → qr_result_into r = .error .qrExpired) ∧
    (r.code ≠ 0 → r.code ≠ 86101 → r.code ≠ 86090 → r.code ≠ 86038 →
      qr_result_into r = .error (.unknownError r.code r.message)) := by
  refine ⟨fun h => ?_, fun h => ?_, fun h => ?_, fun h => ?_, fun h0 h1 h2 h3 => ?_⟩ <;>
    simp [qr_result_into, *]

/-- C7 witness: the classification theorem applied to an unlisted code. -/
theorem qr_result_code_classification_witness :
    qr_result_into ⟨"u", "rt", 0, 5, "m"⟩ = .error (.unknownError 5 "m") :=
  (qr_result_code_classification ⟨"u", "rt", 0, 5, "m"⟩).2.2.2.2
    (by decide) (by decide) (by decide) (by decide)

/-- Helper: while a QR is pending, any number of further requests are all
served with the same url and fresh subscribers of the same channel, and
the poll child's success ends the period with one broadcast of the one
client to every subscriber accumulated so far. -/
theorem poll_login_run_pending {U C : Type} (u : U) (c : C) (ch : Nat) :
    ∀ (k : Nat) (st : PollLoginState U), st.pending = some (u, ch) →
      poll_login_run st
          (List.replicate k (LoginEv.request none true) ++ [LoginEv.pollOk c]) =
        (⟨none, st.next_chan, 0⟩,
          List.replicate k (LoginOut.reply u ch) ++ [.broadcast ch (st.subs + k) c]) := by
  intro k
  induction k with
  | zero =>
    intro st h
    simp [poll_login_run, poll_login_step, h]
  | succ k ih =>
    intro st h
    have hstep : poll_login_step st (LoginEv.request (C := C) none true) =
        ({ st with subs := st.subs + 1 }, [.reply u ch]) := by
      simp [poll_login_step, h]
    simp only [List.replicate_succ, List.cons_append, poll_login_run, hstep, List.append_eq]
    rw [ih { st with subs := st.subs + 1 } (by simp [h])]
    have harith : st.subs + 1 + k = st.subs + (k + 1) := by omega
    simp [List.replicate_succ, harith]

/-- C10: single-flight QR at the login coordinator. While a QR is pending,
(1) a request never mints a second QR or channel and leaves the pending
pair untouched — at most one in-flight QR; (2) every request whose
oneshot is still open receives a clone of the same pending url together
with a fresh subscriber (one more) to the one broadcast channel created
with the QR; (3) the poll child's success produces exactly one broadcast
send carrying the one resulting client to all current subscribers of
that channel, after which the coordinator is idle; and (4) a whole run
with `k + 1` concurrent requesters replies to all of them with the same
url and the same channel, and the final broadcast reaches all `k + 1`
subscribers with the identical client. -/
theorem poll_login_single_flight (U C : Type) :
    (∀ (st : PollLoginState U) (url : U) (ch : Nat) (gen : Option U) (receiver_open : Bool),
      st.pending = some (url, ch) →
      (poll_login_step (C := C) st (.request gen receiver_open)).fst.pending = some (url, ch) ∧
      (poll_login_step (C := C) st (.request gen receiver_open)).fst.next_chan =
        st.next_chan) ∧
    (∀ (st : PollLoginState U) (url : U) (ch : Nat) (gen : Option U),
      st.pending = some (url, ch) →
      poll_login_step (C := C) st (.request gen true) =
        ({ st with subs := st.subs + 1 }, [.reply url ch])) ∧
    (∀ (st : PollLoginState U) (url : U) (ch : Nat) (c : C),
      st.pending = some (url, ch) →
      poll_login_step st (.pollOk c) =
        (⟨none, st.next_chan, 0⟩, [.broadcast ch st.subs c])) ∧
    (∀ (u : U) (c : C) (n k : Nat),
      poll_login_run (⟨none, n, 0⟩ : PollLoginState U)
          (LoginEv.request (some u) true
            :: (List.replicate k (LoginEv.request none true) ++ [LoginEv.pollOk c])) =
        (⟨none, n + 1, 0⟩,
          LoginOut.reply u n
            :: (List.replicate k (LoginOut.reply u n) ++ [.broadcast n (k + 1) c]))) := by
  refine ⟨?_, ?_, ?_, ?_⟩
  · intro st url ch gen receiver_open h
    cases receiver_open <;> simp [poll_login_step, h]
  · intro st url ch gen h
    simp [poll_login_step, h]
  · intro st url ch c h
    simp [poll_login_step, h]
  · intro u c n k
    have hstep : poll_login_step (⟨none, n, 0⟩ : PollLoginState U)
        (LoginEv.request (C := C) (some u) true) =
          (⟨some (u, n), n + 1, 1⟩, [.reply u n]) := by
      simp [poll_login_step]
    simp only [poll_login_run, hstep]
    rw [poll_login_run_pending u c n k ⟨some (u, n), n + 1, 1⟩ rfl]
    simp [Nat.add_comm]

/-- C10 witness: the single-flight theorem applied at a concrete pending
state and a concrete three-requester run. -/
theorem poll_login_single_flight_witness :
    poll_login_step (⟨some (7, 0), 1, 1⟩ : PollLoginState Nat)
        (LoginEv.request (C := Nat) none true) = (⟨some (7, 0), 1, 2⟩, [.reply 7 0]) ∧
    poll_login_step (⟨some (7, 0), 1, 2⟩ : PollLoginState Nat) (.pollOk (3 : Nat)) =
      (⟨none, 1, 0⟩, [.broadcast 0 2 3]) ∧
    poll_login_run (⟨none, 0, 0⟩ : PollLoginState Nat)
        [LoginEv.request (some 7) true, .request none true, .request none true,
          .pollOk (3 : Nat)] =
      (⟨none, 1, 0⟩, [.reply 7 0, .reply 7 0, .reply 7 0, .broadcast 0 3 3]) := by
  have h := poll_login_single_flight Nat Nat
  refine ⟨by simpa using h.2.1 ⟨some (7, 0), 1, 1⟩ 7 0 none rfl,
    by simpa using h.2.2.1 ⟨some (7, 0), 1, 2⟩ 7 0 3 rfl, ?_⟩
  have := h.2.2.2 7 3 0 2
  simpa using this

end Bilili
